import Mathlib

/-!
Verification of the retry core of the ContestTrade resilient-execution layer:
the exception taxonomy (`utils/exceptions.py`), the retry policy and its two
executors and the scoped retry guard (`utils/retry_utils.py`), shallowly
embedded in Lean.  Durations are modelled as rationals; the uniform jitter
draw and the per-retry `asyncio.sleep` / `time.sleep` waits are modelled by
an explicit sample stream and an event trace.
-/

namespace ContestTrade

/-- The exception taxonomy of `utils/exceptions.py`: every class declared
there, plus Python's builtin `Exception` root (`PyException`). -/
inductive ExcKind where
  | PyException
  | ContestTradeException
  | ConfigurationError
  | ValidationError
  | DataSourceError
  | DataFetchError
  | DataParseError
  | APIError
  | APITimeoutError
  | APIRateLimitError
  | LLMError
  | LLMResponseError
  | LLMParseError
  | AgentError
  | AgentTimeoutError
  | ToolError
  | ToolNotFoundError
  | MarketError
  | InvalidMarketError
  | InvalidSymbolError
  | SignalParseError
  | FactorParseError
deriving DecidableEq, Repr, Fintype

/-- The base class of each taxonomy kind, read off the `class X(Y)` lines of
`utils/exceptions.py`; `Exception` itself has no parent here. -/
def parentClass : ExcKind → Option ExcKind
  | .PyException => none
  | .ContestTradeException => some .PyException
  | .ConfigurationError => some .ContestTradeException
  | .ValidationError => some .ContestTradeException
  | .DataSourceError => some .ContestTradeException
  | .DataFetchError => some .DataSourceError
  | .DataParseError => some .DataSourceError
  | .APIError => some .ContestTradeException
  | .APITimeoutError => some .APIError
  | .APIRateLimitError => some .APIError
  | .LLMError => some .ContestTradeException
  | .LLMResponseError => some .LLMError
  | .LLMParseError => some .LLMError
  | .AgentError => some .ContestTradeException
  | .AgentTimeoutError => some .AgentError
  | .ToolError => some .ContestTradeException
  | .ToolNotFoundError => some .ToolError
  | .MarketError => some .ContestTradeException
  | .InvalidMarketError => some .MarketError
  | .InvalidSymbolError => some .MarketError
  | .SignalParseError => some .ContestTradeException
  | .FactorParseError => some .ContestTradeException

/-- Walk the base-class chain for at most `fuel` steps looking for `b`. -/
def subclassFuel : Nat → ExcKind → ExcKind → Bool
  | 0, _, _ => false
  | fuel + 1, a, b =>
      a == b ||
        (match parentClass a with
         | none => false
         | some p => subclassFuel fuel p b)

/-- Python's `issubclass` on the taxonomy: reflexive-transitive walk up the
base-class chain (every chain in the taxonomy has length at most 4). -/
def py_issubclass (a b : ExcKind) : Bool :=
  subclassFuel 8 a b

/-- The `except exceptions as e` / `issubclass(exc_type, self.exceptions)`
membership test: the raised kind is a subclass of some entry of the tuple. -/
def isRetryable (k : ExcKind) (excs : List ExcKind) : Bool :=
  excs.any (fun a => py_issubclass k a)

/-- An exception object: its taxonomy kind plus an identity tag, so that
"the same exception object, unmodified" is expressible. -/
structure Exc where
  kind : ExcKind
  id : Nat
deriving DecidableEq, Repr

/-- `RetryConfig` of `utils/retry_utils.py`; durations as rationals. -/
structure RetryConfig where
  max_retries : Nat
  initial_delay : ℚ
  max_delay : ℚ
  exponential_base : ℚ
  jitter : Bool
  jitter_range : ℚ × ℚ
deriving DecidableEq, Repr

/-- `RetryConfig.calculate_delay`: exponential envelope clamped to
`max_delay`, then multiplied by the jitter sample `u` when jitter is on.
`u` stands for the `random.uniform(jitter_min, jitter_max)` draw. -/
def RetryConfig.calculate_delay (cfg : RetryConfig) (attempt : Nat) (u : ℚ) : ℚ :=
  let delay := min (cfg.initial_delay * cfg.exponential_base ^ attempt) cfg.max_delay
  if cfg.jitter then delay * u else delay

/-- Observable side effects of one executor run: each invocation of the
wrapped function, each `on_retry` callback call (with its arguments), the
log line emitted when the callback itself raised, and each sleep. -/
inductive RetryEvent where
  | invoke (attempt : Nat)
  | callbackCall (e : Exc) (attempt : Nat)
  | callbackFailedLog (err : Exc)
  | sleep (d : ℚ)
deriving DecidableEq, Repr

/-- The events of the `if on_retry: try on_retry(e, attempt) except ...`
block: no event when no callback is supplied; a call event, followed by the
error-log event when the callback itself raised. -/
def cbEvents (on_retry : Option (Exc → Nat → Option Exc)) (e : Exc) (attempt : Nat) :
    List RetryEvent :=
  match on_retry with
  | none => []
  | some cb =>
      match cb e attempt with
      | none => [RetryEvent.callbackCall e attempt]
      | some err => [RetryEvent.callbackCall e attempt, RetryEvent.callbackFailedLog err]

/-- What one executor run produced: the value returned or exception raised
(`Except.ok none` models the wrapper falling off its loop and returning
Python's `None`), and the event trace. -/
structure RunResult (α : Type) where
  outcome : Except Exc (Option α)
  events : List RetryEvent

/-- The `for attempt in range(config.max_retries + 1)` loop body of
`sync_retry`'s `wrapper`, fuel = loop iterations left.  The wrapped function
is modelled per attempt index (`func k` = what invocation `k` does); `us k`
is the jitter sample `calculate_delay` would draw on attempt `k`. -/
def sync_retry_go {α : Type} (cfg : RetryConfig) (excs : List ExcKind)
    (on_retry : Option (Exc → Nat → Option Exc))
    (func : Nat → Except Exc α) (us : Nat → ℚ) :
    Nat → Nat → Option Exc → RunResult α
  | 0, _, last =>
      match last with
      | some e => ⟨Except.error e, []⟩
      | none => ⟨Except.ok none, []⟩
  | fuel + 1, attempt, _ =>
      match func attempt with
      | Except.ok v => ⟨Except.ok (some v), [RetryEvent.invoke attempt]⟩
      | Except.error e =>
          if isRetryable e.kind excs then
            if attempt = cfg.max_retries then
              ⟨Except.error e, [RetryEvent.invoke attempt]⟩
            else
              let delay := cfg.calculate_delay attempt (us attempt)
              let rest := sync_retry_go cfg excs on_retry func us fuel (attempt + 1) (some e)
              ⟨rest.outcome,
               RetryEvent.invoke attempt ::
                 (cbEvents on_retry e attempt ++ [RetryEvent.sleep delay]) ++ rest.events⟩
          else
            ⟨Except.error e, [RetryEvent.invoke attempt]⟩

/-- `sync_retry(config, exceptions, on_retry)` applied to a function:
run the loop from attempt 0 with `max_retries + 1` iterations and
`last_exception = None`. -/
def sync_retry {α : Type} (cfg : RetryConfig) (excs : List ExcKind)
    (on_retry : Option (Exc → Nat → Option Exc))
    (func : Nat → Except Exc α) (us : Nat → ℚ) : RunResult α :=
  sync_retry_go cfg excs on_retry func us (cfg.max_retries + 1) 0 none

/-- The loop body of `async_retry`'s `wrapper`: textually the same algorithm
as `sync_retry_go` (the Python bodies differ only in `await asyncio.sleep`
versus `time.sleep`, both modelled by the `sleep` event). -/
def async_retry_go {α : Type} (cfg : RetryConfig) (excs : List ExcKind)
    (on_retry : Option (Exc → Nat → Option Exc))
    (func : Nat → Except Exc α) (us : Nat → ℚ) :
    Nat → Nat → Option Exc → RunResult α
  | 0, _, last =>
      match last with
      | some e => ⟨Except.error e, []⟩
      | none => ⟨Except.ok none, []⟩
  | fuel + 1, attempt, _ =>
      match func attempt with
      | Except.ok v => ⟨Except.ok (some v), [RetryEvent.invoke attempt]⟩
      | Except.error e =>
          if isRetryable e.kind excs then
            if attempt = cfg.max_retries then
              ⟨Except.error e, [RetryEvent.invoke attempt]⟩
            else
              let delay := cfg.calculate_delay attempt (us attempt)
              let rest := async_retry_go cfg excs on_retry func us fuel (attempt + 1) (some e)
              ⟨rest.outcome,
               RetryEvent.invoke attempt ::
                 (cbEvents on_retry e attempt ++ [RetryEvent.sleep delay]) ++ rest.events⟩
          else
            ⟨Except.error e, [RetryEvent.invoke attempt]⟩

/-- `async_retry(config, exceptions, on_retry)` applied to a coroutine. -/
def async_retry {α : Type} (cfg : RetryConfig) (excs : List ExcKind)
    (on_retry : Option (Exc → Nat → Option Exc))
    (func : Nat → Except Exc α) (us : Nat → ℚ) : RunResult α :=
  async_retry_go cfg excs on_retry func us (cfg.max_retries + 1) 0 none

/-- Projection selecting invocation events. -/
def invokeOf : RetryEvent → Option Nat
  | RetryEvent.invoke a => some a
  | _ => none

/-- Projection selecting sleep events. -/
def sleepOf : RetryEvent → Option ℚ
  | RetryEvent.sleep d => some d
  | _ => none

/-- Projection selecting callback-call events with their arguments. -/
def cbCallOf : RetryEvent → Option (Exc × Nat)
  | RetryEvent.callbackCall e a => some (e, a)
  | _ => none

/-- The attempt indices at which the wrapped function was invoked, in order. -/
def invokedAttempts (r : RunResult α) : List Nat :=
  r.events.filterMap invokeOf

/-- The durations slept, in order. -/
def sleepDelays (r : RunResult α) : List ℚ :=
  r.events.filterMap sleepOf

/-- The `(exception, attempt)` argument pairs the retry callback received,
in order. -/
def callbackCalls (r : RunResult α) : List (Exc × Nat) :=
  r.events.filterMap cbCallOf

/-- `RetryContext` of `utils/retry_utils.py`. -/
structure RetryContext where
  config : RetryConfig
  exceptions : List ExcKind
  attempt : Nat
  last_exception : Option Exc
deriving DecidableEq, Repr

/-- `RetryContext.__init__`: stores config and retryable tuple, starts at
`attempt = 0` with `last_exception = None`. -/
def RetryContext.make (config : RetryConfig) (excs : List ExcKind) : RetryContext :=
  ⟨config, excs, 0, none⟩

/-- What one `__exit__` call did: its return value (`suppress = true` means
the exception is swallowed and the caller's loop continues), the guard's
state afterwards, and the waits it performed. -/
structure ExitResult where
  suppress : Bool
  ctx : RetryContext
  waits : List ℚ
deriving DecidableEq, Repr

/-- `RetryContext.__exit__`: `exc` is the exception raised inside the guarded
block (`none` on clean exit); `u` is the jitter sample for the one
`calculate_delay` call it may make. -/
def RetryContext.exit (self : RetryContext) (exc : Option Exc) (u : ℚ) : ExitResult :=
  match exc with
  | none => ⟨true, self, []⟩
  | some e =>
      if isRetryable e.kind self.exceptions then
        let s1 : RetryContext := { self with last_exception := some e }
        if s1.attempt ≥ s1.config.max_retries then
          ⟨false, s1, []⟩
        else
          let delay := s1.config.calculate_delay s1.attempt u
          ⟨true, { s1 with attempt := s1.attempt + 1 }, [delay]⟩
      else
        ⟨false, self, []⟩

/-- Keeps a list when a callback is supplied, drops it when none is:
the shape of callback-related observables for an arbitrary `on_retry`. -/
def cbTag {γ : Type} (on_retry : Option (Exc → Nat → Option Exc)) (l : List γ) : List γ :=
  match on_retry with
  | none => []
  | some _ => l

/-- The events one retried attempt `k` contributes: its invocation, the
callback events, and the backoff sleep. -/
def attemptBlock (cfg : RetryConfig) (on_retry : Option (Exc → Nat → Option Exc))
    (us : Nat → ℚ) (errs : Nat → Exc) (k : Nat) : List RetryEvent :=
  RetryEvent.invoke k ::
    (cbEvents on_retry (errs k) k ++ [RetryEvent.sleep (cfg.calculate_delay k (us k))])

/-- The events of a run of retried attempts at the indices in `l`. -/
def attemptBlocks (cfg : RetryConfig) (on_retry : Option (Exc → Nat → Option Exc))
    (us : Nat → ℚ) (errs : Nat → Exc) (l : List Nat) : List RetryEvent :=
  l.flatMap (attemptBlock cfg on_retry us errs)

@[simp]
theorem attemptBlocks_nil (cfg : RetryConfig) (on_retry : Option (Exc → Nat → Option Exc))
    (us : Nat → ℚ) (errs : Nat → Exc) :
    attemptBlocks cfg on_retry us errs [] = [] := rfl

@[simp]
theorem attemptBlocks_cons (cfg : RetryConfig) (on_retry : Option (Exc → Nat → Option Exc))
    (us : Nat → ℚ) (errs : Nat → Exc) (a : Nat) (l : List Nat) :
    attemptBlocks cfg on_retry us errs (a :: l)
      = attemptBlock cfg on_retry us errs a ++ attemptBlocks cfg on_retry us errs l := rfl

/-- One-step unfolding of the loop body at positive fuel. -/
theorem sync_go_unfold {α : Type} (cfg : RetryConfig) (excs : List ExcKind)
    (on_retry : Option (Exc → Nat → Option Exc)) (func : Nat → Except Exc α)
    (us : Nat → ℚ) (fuel attempt : Nat) (last : Option Exc) :
    sync_retry_go cfg excs on_retry func us (fuel + 1) attempt last =
      match func attempt with
      | Except.ok v => ⟨Except.ok (some v), [RetryEvent.invoke attempt]⟩
      | Except.error e =>
          if isRetryable e.kind excs then
            if attempt = cfg.max_retries then
              ⟨Except.error e, [RetryEvent.invoke attempt]⟩
            else
              ⟨(sync_retry_go cfg excs on_retry func us fuel (attempt + 1) (some e)).outcome,
               RetryEvent.invoke attempt ::
                 (cbEvents on_retry e attempt ++
                   [RetryEvent.sleep (cfg.calculate_delay attempt (us attempt))]) ++
                 (sync_retry_go cfg excs on_retry func us fuel (attempt + 1) (some e)).events⟩
          else
            ⟨Except.error e, [RetryEvent.invoke attempt]⟩ := rfl

/-- The two executor loop bodies compute the same thing: the Python sources
differ only in `time.sleep` versus `await asyncio.sleep`. -/
theorem async_go_eq_sync {α : Type} (cfg : RetryConfig) (excs : List ExcKind)
    (on_retry : Option (Exc → Nat → Option Exc)) (func : Nat → Except Exc α) (us : Nat → ℚ) :
    ∀ fuel attempt last,
      async_retry_go cfg excs on_retry func us fuel attempt last
        = sync_retry_go cfg excs on_retry func us fuel attempt last := by
  intro fuel
  induction fuel with
  | zero => intro attempt last; rfl
  | succ n ih =>
      intro attempt last
      simp only [async_retry_go, sync_retry_go, ih]

theorem async_retry_eq_sync {α : Type} (cfg : RetryConfig) (excs : List ExcKind)
    (on_retry : Option (Exc → Nat → Option Exc)) (func : Nat → Except Exc α) (us : Nat → ℚ) :
    async_retry cfg excs on_retry func us = sync_retry cfg excs on_retry func us :=
  async_go_eq_sync cfg excs on_retry func us _ _ _

/-- Master characterization of one executor run.  If the wrapped function
raises the retryable `errs k` on every attempt `k` before `t` and attempt
`t` is terminal — it succeeds, or raises a non-retryable exception, or
raises a retryable one with the budget exhausted (`t = max_retries`) — then
the run's trace is the `t` retried blocks followed by the terminal
invocation, and the outcome forwards what attempt `t` produced. -/
theorem sync_go_reach {α : Type} (cfg : RetryConfig) (excs : List ExcKind)
    (on_retry : Option (Exc → Nat → Option Exc)) (func : Nat → Except Exc α)
    (us : Nat → ℚ) (errs : Nat → Exc) (t : Nat)
    (ht : t ≤ cfg.max_retries)
    (hf : ∀ k, k < t → func k = Except.error (errs k))
    (hr : ∀ k, k < t → isRetryable (errs k).kind excs = true)
    (hterm : (∃ v, func t = Except.ok v) ∨
       (∃ e, func t = Except.error e ∧
          (isRetryable e.kind excs = false ∨ t = cfg.max_retries))) :
    ∀ m attempt last, attempt + m = cfg.max_retries → attempt ≤ t →
      (sync_retry_go cfg excs on_retry func us (m + 1) attempt last).events
          = attemptBlocks cfg on_retry us errs (List.range' attempt (t - attempt))
              ++ [RetryEvent.invoke t]
        ∧ (sync_retry_go cfg excs on_retry func us (m + 1) attempt last).outcome
          = (func t).map some := by
  intro m
  induction m with
  | zero =>
      intro attempt last hsum hat
      have hteq : t = attempt := by omega
      subst hteq
      have hmax : t = cfg.max_retries := by omega
      rw [sync_go_unfold]
      rcases hterm with ⟨v, hv⟩ | ⟨e, he, _⟩
      · rw [hv]; simp [Except.map]
      · rw [he]
        by_cases hret : isRetryable e.kind excs = true
        · simp [hret, hmax, Except.map]
        · simp [hret, Except.map]
  | succ m ih =>
      intro attempt last hsum hat
      rw [sync_go_unfold]
      by_cases hta : attempt = t
      · subst hta
        rcases hterm with ⟨v, hv⟩ | ⟨e, he, hcase⟩
        · rw [hv]; simp [Except.map]
        · have hne : attempt ≠ cfg.max_retries := by omega
          rcases hcase with hnr | habs
          · rw [he]; simp [hnr, Except.map]
          · omega
      · have hlt : attempt < t := lt_of_le_of_ne hat hta
        have hne : attempt ≠ cfg.max_retries := by omega
        obtain ⟨hev, hout⟩ := ih (attempt + 1) (some (errs attempt)) (by omega) (by omega)
        have hrng : List.range' attempt (t - attempt)
            = attempt :: List.range' (attempt + 1) (t - (attempt + 1)) := by
          have hsplit : t - attempt = (t - (attempt + 1)) + 1 := by omega
          rw [hsplit, List.range'_succ]
        rw [hf attempt hlt]
        simp only [hr attempt hlt, if_true, hne, if_false, ite_true, ite_false, if_neg hne]
        refine ⟨?_, ?_⟩
        · simp only [hev, hrng, attemptBlocks_cons, attemptBlock]
          simp [List.append_assoc]
        · simpa using hout

theorem cbTag_cons {γ : Type} (on_retry : Option (Exc → Nat → Option Exc))
    (x : γ) (xs : List γ) :
    cbTag on_retry (x :: xs) = cbTag on_retry [x] ++ cbTag on_retry xs := by
  cases on_retry <;> rfl

@[simp]
theorem block_filter_invoke (cfg : RetryConfig) (on_retry : Option (Exc → Nat → Option Exc))
    (us : Nat → ℚ) (errs : Nat → Exc) (k : Nat) :
    (attemptBlock cfg on_retry us errs k).filterMap invokeOf = [k] := by
  cases on_retry with
  | none => rfl
  | some cb =>
      cases h : cb (errs k) k <;>
        simp [attemptBlock, cbEvents, h, invokeOf]

@[simp]
theorem block_filter_sleep (cfg : RetryConfig) (on_retry : Option (Exc → Nat → Option Exc))
    (us : Nat → ℚ) (errs : Nat → Exc) (k : Nat) :
    (attemptBlock cfg on_retry us errs k).filterMap sleepOf
      = [cfg.calculate_delay k (us k)] := by
  cases on_retry with
  | none => rfl
  | some cb =>
      cases h : cb (errs k) k <;>
        simp [attemptBlock, cbEvents, h, sleepOf]

@[simp]
theorem block_filter_cbCall (cfg : RetryConfig) (on_retry : Option (Exc → Nat → Option Exc))
    (us : Nat → ℚ) (errs : Nat → Exc) (k : Nat) :
    (attemptBlock cfg on_retry us errs k).filterMap cbCallOf
      = cbTag on_retry [(errs k, k)] := by
  cases on_retry with
  | none => rfl
  | some cb =>
      cases h : cb (errs k) k <;>
        simp [attemptBlock, cbEvents, h, cbCallOf, cbTag]

theorem blocks_filter_invoke (cfg : RetryConfig) (on_retry : Option (Exc → Nat → Option Exc))
    (us : Nat → ℚ) (errs : Nat → Exc) (l : List Nat) :
    (attemptBlocks cfg on_retry us errs l).filterMap invokeOf = l := by
  induction l with
  | nil => rfl
  | cons a l ih => simp [attemptBlocks_cons, List.filterMap_append, ih]

theorem blocks_filter_sleep (cfg : RetryConfig) (on_retry : Option (Exc → Nat → Option Exc))
    (us : Nat → ℚ) (errs : Nat → Exc) (l : List Nat) :
    (attemptBlocks cfg on_retry us errs l).filterMap sleepOf
      = l.map (fun k => cfg.calculate_delay k (us k)) := by
  induction l with
  | nil => rfl
  | cons a l ih => simp [attemptBlocks_cons, List.filterMap_append, ih]

theorem blocks_filter_cbCall (cfg : RetryConfig) (on_retry : Option (Exc → Nat → Option Exc))
    (us : Nat → ℚ) (errs : Nat → Exc) (l : List Nat) :
    (attemptBlocks cfg on_retry us errs l).filterMap cbCallOf
      = cbTag on_retry (l.map (fun k => (errs k, k))) := by
  induction l with
  | nil => cases on_retry <;> rfl
  | cons a l ih =>
      rw [List.map_cons, cbTag_cons, attemptBlocks_cons, List.filterMap_append,
        block_filter_cbCall, ih]

/-- The scenario characterization lifted to `sync_retry` itself, stated on
the four observables: outcome, invocation list, sleep list, callback-call
list. -/
theorem sync_retry_reach {α : Type} (cfg : RetryConfig) (excs : List ExcKind)
    (on_retry : Option (Exc → Nat → Option Exc)) (func : Nat → Except Exc α)
    (us : Nat → ℚ) (errs : Nat → Exc) (t : Nat)
    (ht : t ≤ cfg.max_retries)
    (hf : ∀ k, k < t → func k = Except.error (errs k))
    (hr : ∀ k, k < t → isRetryable (errs k).kind excs = true)
    (hterm : (∃ v, func t = Except.ok v) ∨
       (∃ e, func t = Except.error e ∧
          (isRetryable e.kind excs = false ∨ t = cfg.max_retries))) :
    (sync_retry cfg excs on_retry func us).events
        = attemptBlocks cfg on_retry us errs (List.range t) ++ [RetryEvent.invoke t]
      ∧ (sync_retry cfg excs on_retry func us).outcome = (func t).map some
      ∧ invokedAttempts (sync_retry cfg excs on_retry func us) = List.range (t + 1)
      ∧ sleepDelays (sync_retry cfg excs on_retry func us)
          = (List.range t).map (fun k => cfg.calculate_delay k (us k))
      ∧ callbackCalls (sync_retry cfg excs on_retry func us)
          = cbTag on_retry ((List.range t).map (fun k => (errs k, k))) := by
  obtain ⟨hev, hout⟩ :=
    sync_go_reach cfg excs on_retry func us errs t ht hf hr hterm
      cfg.max_retries 0 none (by omega) (by omega)
  rw [sync_retry] at *
  rw [List.range_eq_range']
  have hev' : (sync_retry_go cfg excs on_retry func us (cfg.max_retries + 1) 0 none).events
      = attemptBlocks cfg on_retry us errs (List.range' 0 t) ++ [RetryEvent.invoke t] := by
    simpa using hev
  refine ⟨hev', hout, ?_, ?_, ?_⟩
  · rw [invokedAttempts, hev', List.filterMap_append, blocks_filter_invoke]
    simp [invokeOf, List.range_succ, List.range_eq_range']
  · rw [sleepDelays, hev', List.filterMap_append, blocks_filter_sleep]
    simp [sleepOf]
  · rw [callbackCalls, hev', List.filterMap_append, blocks_filter_cbCall]
    cases on_retry <;> simp [cbTag, cbCallOf]

/-- Strict is-a descent in the taxonomy: `a` lies strictly below `b` along
`parentClass` links.  This is the specification-side reading of "descendant
in the Exception Taxonomy", to be compared with the fuel-based walk the
embedding of `issubclass` performs. -/
inductive Descendant : ExcKind → ExcKind → Prop where
  | base : ∀ {a b : ExcKind}, parentClass a = some b → Descendant a b
  | up : ∀ {a b c : ExcKind}, parentClass a = some b → Descendant b c → Descendant a c

/-- Distance of a kind from the taxonomy root. -/
def classDepth : ExcKind → Nat
  | .PyException => 0
  | .ContestTradeException => 1
  | .DataFetchError => 3
  | .DataParseError => 3
  | .APITimeoutError => 3
  | .APIRateLimitError => 3
  | .LLMResponseError => 3
  | .LLMParseError => 3
  | .AgentTimeoutError => 3
  | .ToolNotFoundError => 3
  | .InvalidMarketError => 3
  | .InvalidSymbolError => 3
  | _ => 2

theorem parentClass_depth : ∀ a b : ExcKind,
    parentClass a = some b → classDepth a = classDepth b + 1 := by decide

theorem classDepth_le : ∀ a : ExcKind, classDepth a ≤ 7 := by decide

theorem subclassFuel_sound : ∀ (n : Nat) (a b : ExcKind),
    subclassFuel n a b = true → a = b ∨ Descendant a b := by
  intro n
  induction n with
  | zero => intro a b h; exact absurd h (by simp [subclassFuel])
  | succ n ih =>
      intro a b h
      cases hp : parentClass a with
      | none =>
          simp only [subclassFuel, hp, Bool.or_false] at h
          exact Or.inl (by simpa using h)
      | some p =>
          simp only [subclassFuel, hp, Bool.or_eq_true, beq_iff_eq] at h
          rcases h with hab | hsub
          · exact Or.inl hab
          · rcases ih p b hsub with rfl | hd
            · exact Or.inr (Descendant.base hp)
            · exact Or.inr (Descendant.up hp hd)

theorem descendant_subclassFuel : ∀ {a b : ExcKind}, Descendant a b →
    ∀ n, classDepth a + 1 ≤ n → subclassFuel n a b = true := by
  intro a b h
  induction h with
  | base hp =>
      intro n hn
      have hd := parentClass_depth _ _ hp
      match n, hn with
      | m + 1, _ =>
          simp only [subclassFuel, hp]
          match m, (by omega : 1 ≤ m) with
          | j + 1, _ =>
              simp [subclassFuel]
  | up hp hd ih =>
      intro n hn
      have hdep := parentClass_depth _ _ hp
      match n, hn with
      | m + 1, _ =>
          simp only [subclassFuel, hp]
          have := ih m (by omega)
          simp [this]

/-- The fuel-based `issubclass` walk is exactly "equal or taxonomy
descendant". -/
theorem py_issubclass_iff (a b : ExcKind) :
    py_issubclass a b = true ↔ a = b ∨ Descendant a b := by
  constructor
  · exact subclassFuel_sound 8 a b
  · rintro (rfl | hd)
    · simp [py_issubclass, subclassFuel]
    · exact descendant_subclassFuel hd 8 (by have := classDepth_le a; omega)

/-- `except exceptions` membership is exactly "some tuple entry, by identity
or ancestry". -/
theorem isRetryable_iff (k : ExcKind) (excs : List ExcKind) :
    isRetryable k excs = true ↔ ∃ a ∈ excs, k = a ∨ Descendant k a := by
  simp [isRetryable, List.any_eq_true, py_issubclass_iff]

@[simp]
theorem cbEvents_filter_invoke (on_retry : Option (Exc → Nat → Option Exc)) (e : Exc) (a : Nat) :
    (cbEvents on_retry e a).filterMap invokeOf = [] := by
  cases on_retry with
  | none => rfl
  | some cb => cases h : cb e a <;> simp [cbEvents, h, invokeOf]

@[simp]
theorem cbEvents_filter_sleep (on_retry : Option (Exc → Nat → Option Exc)) (e : Exc) (a : Nat) :
    (cbEvents on_retry e a).filterMap sleepOf = [] := by
  cases on_retry with
  | none => rfl
  | some cb => cases h : cb e a <;> simp [cbEvents, h, sleepOf]

@[simp]
theorem cbEvents_filter_cbCall (on_retry : Option (Exc → Nat → Option Exc)) (e : Exc) (a : Nat) :
    (cbEvents on_retry e a).filterMap cbCallOf = cbTag on_retry [(e, a)] := by
  cases on_retry with
  | none => rfl
  | some cb => cases h : cb e a <;> simp [cbEvents, h, cbCallOf, cbTag]

/-- Whatever the callback does when it is itself broken, the loop's outcome
and its invocation, sleep and callback-argument observables are those of the
run with any other callback behaviour. -/
theorem sync_go_callback_indep {α : Type} (cfg : RetryConfig) (excs : List ExcKind)
    (f g : Exc → Nat → Option Exc) (func : Nat → Except Exc α) (us : Nat → ℚ) :
    ∀ fuel attempt last,
      (sync_retry_go cfg excs (some f) func us fuel attempt last).outcome
          = (sync_retry_go cfg excs (some g) func us fuel attempt last).outcome
        ∧ (sync_retry_go cfg excs (some f) func us fuel attempt last).events.filterMap invokeOf
          = (sync_retry_go cfg excs (some g) func us fuel attempt last).events.filterMap invokeOf
        ∧ (sync_retry_go cfg excs (some f) func us fuel attempt last).events.filterMap sleepOf
          = (sync_retry_go cfg excs (some g) func us fuel attempt last).events.filterMap sleepOf
        ∧ (sync_retry_go cfg excs (some f) func us fuel attempt last).events.filterMap cbCallOf
          = (sync_retry_go cfg excs (some g) func us fuel attempt last).events.filterMap cbCallOf := by
  intro fuel
  induction fuel with
  | zero => intro attempt last; cases last <;> exact ⟨rfl, rfl, rfl, rfl⟩
  | succ n ih =>
      intro attempt last
      rw [sync_go_unfold, sync_go_unfold]
      cases hfa : func attempt with
      | ok v => exact ⟨rfl, rfl, rfl, rfl⟩
      | error e =>
          by_cases hret : isRetryable e.kind excs = true
          · by_cases hmax : attempt = cfg.max_retries
            · simp [hret, hmax]
            · obtain ⟨ho, hi, hs, hc⟩ := ih (attempt + 1) (some e)
              simp only [hret, if_true, hmax, if_false, ite_true, ite_false, if_neg hmax]
              refine ⟨ho, ?_, ?_, ?_⟩ <;>
                simp [List.filterMap_append, List.filterMap_cons, invokeOf, sleepOf, cbCallOf,
                  cbTag, hi, hs, hc]
          · simp [hret]

/-- C2: for every policy with `initial_delay > 0`, `max_delay ≥
initial_delay`, `exponential_base > 1` and jitter disabled, and every
attempt index `k`, `calculate_delay k` equals
`min(initial_delay * base^k, max_delay)`, whatever the sample stream would
have offered — the computation is pure. -/
theorem claim_C2_delay_no_jitter (cfg : RetryConfig) (k : Nat) (u : ℚ)
    (h0 : 0 < cfg.initial_delay) (hM : cfg.initial_delay ≤ cfg.max_delay)
    (hb : 1 < cfg.exponential_base) (hj : cfg.jitter = false) :
    cfg.calculate_delay k u
      = min (cfg.initial_delay * cfg.exponential_base ^ k) cfg.max_delay := by
  simp [RetryConfig.calculate_delay, hj]

/-- Witness for C2: the Scenario-A policy at attempt 4 with an arbitrary
sample. -/
theorem claim_C2_delay_no_jitter_witness :
    RetryConfig.calculate_delay ⟨3, 1, 60, 2, false, (1/2, 3/2)⟩ 4 1
      = min ((1 : ℚ) * 2 ^ 4) 60 :=
  claim_C2_delay_no_jitter ⟨3, 1, 60, 2, false, (1/2, 3/2)⟩ 4 1
    (by norm_num) (by norm_num) (by norm_num) rfl

/-- C9: with jitter enabled and a sample `u` inside `jitter_range`, the
returned wait is the `max_delay`-clamped envelope multiplied by `u` — the
jitter factor is applied after clamping — and for some valid policy,
attempt index and sample above 1 the returned wait strictly exceeds
`max_delay`. -/
theorem claim_C9_jitter_after_clamp (cfg : RetryConfig) (k : Nat) (u : ℚ)
    (hj : cfg.jitter = true) (hlow : 0 < cfg.jitter_range.1)
    (hrange : cfg.jitter_range.1 ≤ cfg.jitter_range.2)
    (hu1 : cfg.jitter_range.1 ≤ u) (hu2 : u ≤ cfg.jitter_range.2) :
    cfg.calculate_delay k u
        = min (cfg.initial_delay * cfg.exponential_base ^ k) cfg.max_delay * u
      ∧ ∃ cfg' : RetryConfig, ∃ k' : Nat, ∃ u' : ℚ,
          cfg'.jitter = true ∧ 0 < cfg'.initial_delay ∧
          cfg'.initial_delay ≤ cfg'.max_delay ∧ 1 < cfg'.exponential_base ∧
          0 < cfg'.jitter_range.1 ∧ cfg'.jitter_range.1 ≤ cfg'.jitter_range.2 ∧
          cfg'.jitter_range.1 ≤ u' ∧ u' ≤ cfg'.jitter_range.2 ∧ 1 < u' ∧
          cfg'.max_delay < cfg'.calculate_delay k' u' := by
  refine ⟨by simp [RetryConfig.calculate_delay, hj],
    ⟨3, 1, 60, 2, true, (1/2, 3/2)⟩, 10, 3/2, rfl, by norm_num, by norm_num,
    by norm_num, by norm_num, by norm_num, by norm_num, by norm_num, by norm_num, ?_⟩
  norm_num [RetryConfig.calculate_delay, min_def]

/-- Witness for C9: the default-like jittery policy at attempt 0 with the
unit sample. -/
theorem claim_C9_jitter_after_clamp_witness :
    RetryConfig.calculate_delay ⟨3, 1, 60, 2, true, (1/2, 3/2)⟩ 0 1
        = min ((1 : ℚ) * 2 ^ 0) 60 * 1
      ∧ ∃ cfg' : RetryConfig, ∃ k' : Nat, ∃ u' : ℚ,
          cfg'.jitter = true ∧ 0 < cfg'.initial_delay ∧
          cfg'.initial_delay ≤ cfg'.max_delay ∧ 1 < cfg'.exponential_base ∧
          0 < cfg'.jitter_range.1 ∧ cfg'.jitter_range.1 ≤ cfg'.jitter_range.2 ∧
          cfg'.jitter_range.1 ≤ u' ∧ u' ≤ cfg'.jitter_range.2 ∧ 1 < u' ∧
          cfg'.max_delay < cfg'.calculate_delay k' u' :=
  claim_C9_jitter_after_clamp ⟨3, 1, 60, 2, true, (1/2, 3/2)⟩ 0 1 rfl
    (by norm_num) (by norm_num) (by norm_num) (by norm_num)

/-- C6: the guard's `__exit__` suppresses a raised failure iff its kind is
retryable and `attempt < max_retries`; when it suppresses it waits exactly
`calculate_delay(attempt)` and increments its counter by exactly one; on a
retryable failure with the budget exhausted it propagates without waiting. -/
theorem claim_C6_context_exit (ctx : RetryContext) (e : Exc) (u : ℚ) :
    ((ctx.exit (some e) u).suppress = true ↔
        isRetryable e.kind ctx.exceptions = true ∧ ctx.attempt < ctx.config.max_retries)
    ∧ (isRetryable e.kind ctx.exceptions = true → ctx.attempt < ctx.config.max_retries →
        (ctx.exit (some e) u).waits = [ctx.config.calculate_delay ctx.attempt u]
        ∧ (ctx.exit (some e) u).ctx.attempt = ctx.attempt + 1)
    ∧ (isRetryable e.kind ctx.exceptions = true → ctx.config.max_retries ≤ ctx.attempt →
        (ctx.exit (some e) u).suppress = false ∧ (ctx.exit (some e) u).waits = []) := by
  by_cases hret : isRetryable e.kind ctx.exceptions = true
  · by_cases hlt : ctx.attempt < ctx.config.max_retries
    · simp [RetryContext.exit, hret, hlt, Nat.not_le.mpr hlt, Nat.not_lt.mp]
    · simp [RetryContext.exit, hret, hlt, Nat.not_lt.mp hlt]
  · simp [RetryContext.exit, hret]

/-- C10: a freshly constructed guard has `attempt = 0` and
`last_exception = None`; `__exit__` on a retryable failure stores that
failure in `last_exception` whether it suppresses or propagates; a
non-retryable failure leaves both `attempt` and `last_exception`
unchanged. -/
theorem claim_C10_context_state (cfg : RetryConfig) (excs : List ExcKind)
    (ctx : RetryContext) (e : Exc) (u : ℚ) :
    ((RetryContext.make cfg excs).attempt = 0
      ∧ (RetryContext.make cfg excs).last_exception = none)
    ∧ (isRetryable e.kind ctx.exceptions = true →
        ((ctx.exit (some e) u).ctx).last_exception = some e)
    ∧ (isRetryable e.kind ctx.exceptions = false →
        ((ctx.exit (some e) u).ctx).attempt = ctx.attempt
        ∧ ((ctx.exit (some e) u).ctx).last_exception = ctx.last_exception) := by
  refine ⟨⟨rfl, rfl⟩, ?_, ?_⟩
  · intro hret
    by_cases hge : ctx.config.max_retries ≤ ctx.attempt <;>
      simp [RetryContext.exit, hret, hge]
  · intro hnr
    simp [RetryContext.exit, hnr]

/-- C1: for both executors, if every attempt raises a retryable failure the
wrapped operation is invoked exactly `max_retries + 1` times and the caller
receives the exception object produced by the last invocation, unmodified. -/
theorem claim_C1_exhaustion {α : Type} (cfg : RetryConfig) (excs : List ExcKind)
    (on_retry : Option (Exc → Nat → Option Exc)) (func : Nat → Except Exc α)
    (us : Nat → ℚ) (errs : Nat → Exc)
    (hf : ∀ k, k ≤ cfg.max_retries → func k = Except.error (errs k))
    (hr : ∀ k, k ≤ cfg.max_retries → isRetryable (errs k).kind excs = true) :
    ((sync_retry cfg excs on_retry func us).outcome = Except.error (errs cfg.max_retries)
      ∧ invokedAttempts (sync_retry cfg excs on_retry func us)
        = List.range (cfg.max_retries + 1)
      ∧ (invokedAttempts (sync_retry cfg excs on_retry func us)).length
        = cfg.max_retries + 1)
    ∧ ((async_retry cfg excs on_retry func us).outcome = Except.error (errs cfg.max_retries)
      ∧ invokedAttempts (async_retry cfg excs on_retry func us)
        = List.range (cfg.max_retries + 1)
      ∧ (invokedAttempts (async_retry cfg excs on_retry func us)).length
        = cfg.max_retries + 1) := by
  obtain ⟨hev, hout, hinv, hsl, hcb⟩ :=
    sync_retry_reach cfg excs on_retry func us errs cfg.max_retries le_rfl
      (fun k hk => hf k (by omega)) (fun k hk => hr k (by omega))
      (Or.inr ⟨errs cfg.max_retries, hf _ le_rfl, Or.inr rfl⟩)
  have ho : (sync_retry cfg excs on_retry func us).outcome
      = Except.error (errs cfg.max_retries) := by
    rw [hout, hf _ le_rfl]; rfl
  have hlen : (invokedAttempts (sync_retry cfg excs on_retry func us)).length
      = cfg.max_retries + 1 := by
    rw [hinv, List.length_range]
  rw [async_retry_eq_sync]
  exact ⟨⟨ho, hinv, hlen⟩, ho, hinv, hlen⟩

/-- Witness for C1: `max_retries = 2`, every attempt raising
`APITimeoutError` with the attempt index as identity, retryable via the
`APIError` entry: three invocations, the attempt-2 object raised. -/
theorem claim_C1_exhaustion_witness :
    (sync_retry ⟨2, 1, 60, 2, false, (1, 1)⟩ [ExcKind.APIError] none
        ((fun k => Except.error ⟨ExcKind.APITimeoutError, k⟩) : Nat → Except Exc Nat)
        (fun _ => 1)).outcome
      = Except.error ⟨ExcKind.APITimeoutError, 2⟩
    ∧ invokedAttempts (sync_retry ⟨2, 1, 60, 2, false, (1, 1)⟩ [ExcKind.APIError] none
        ((fun k => Except.error ⟨ExcKind.APITimeoutError, k⟩) : Nat → Except Exc Nat)
        (fun _ => 1))
      = List.range 3 :=
  let h := claim_C1_exhaustion ⟨2, 1, 60, 2, false, (1, 1)⟩ [ExcKind.APIError] none
    ((fun k => Except.error ⟨ExcKind.APITimeoutError, k⟩) : Nat → Except Exc Nat)
    (fun _ => (1 : ℚ))
    (fun k => ⟨ExcKind.APITimeoutError, k⟩) (fun k _ => rfl) (fun k _ => rfl)
  ⟨h.1.1, h.1.2.1⟩

/-- C3: for both executors, if attempts `0..i-1` raise retryable failures
and attempt `i ≤ max_retries` succeeds, the operation is invoked exactly
`i + 1` times (attempts `0..i`), the result is forwarded unchanged, exactly
`i` backoff sleeps happen, and the trace ends at the successful invocation —
nothing runs after it. -/
theorem claim_C3_success_forwarded {α : Type} (cfg : RetryConfig) (excs : List ExcKind)
    (on_retry : Option (Exc → Nat → Option Exc)) (func : Nat → Except Exc α)
    (us : Nat → ℚ) (errs : Nat → Exc) (i : Nat) (v : α)
    (hi : i ≤ cfg.max_retries)
    (hf : ∀ k, k < i → func k = Except.error (errs k))
    (hr : ∀ k, k < i → isRetryable (errs k).kind excs = true)
    (hs : func i = Except.ok v) :
    ((sync_retry cfg excs on_retry func us).outcome = Except.ok (some v)
      ∧ invokedAttempts (sync_retry cfg excs on_retry func us) = List.range (i + 1)
      ∧ sleepDelays (sync_retry cfg excs on_retry func us)
        = (List.range i).map (fun k => cfg.calculate_delay k (us k))
      ∧ (sync_retry cfg excs on_retry func us).events
        = attemptBlocks cfg on_retry us errs (List.range i) ++ [RetryEvent.invoke i])
    ∧ ((async_retry cfg excs on_retry func us).outcome = Except.ok (some v)
      ∧ invokedAttempts (async_retry cfg excs on_retry func us) = List.range (i + 1)
      ∧ sleepDelays (async_retry cfg excs on_retry func us)
        = (List.range i).map (fun k => cfg.calculate_delay k (us k))
      ∧ (async_retry cfg excs on_retry func us).events
        = attemptBlocks cfg on_retry us errs (List.range i) ++ [RetryEvent.invoke i]) := by
  obtain ⟨hev, hout, hinv, hsl, hcb⟩ :=
    sync_retry_reach cfg excs on_retry func us errs i hi hf hr (Or.inl ⟨v, hs⟩)
  have ho : (sync_retry cfg excs on_retry func us).outcome = Except.ok (some v) := by
    rw [hout, hs]; rfl
  rw [async_retry_eq_sync]
  exact ⟨⟨ho, hinv, hsl, hev⟩, ho, hinv, hsl, hev⟩

/-- Witness for C3: two retryable failures then success with value 42 on
attempt 2, under `max_retries = 3`: value forwarded, attempts 0,1,2. -/
theorem claim_C3_success_forwarded_witness :
    (sync_retry ⟨3, 1, 60, 2, false, (1, 1)⟩ [ExcKind.APIError] none
        (fun k => if k < 2 then Except.error ⟨ExcKind.APITimeoutError, k⟩
          else Except.ok (42 : Nat)) (fun _ => 1)).outcome
      = Except.ok (some 42)
    ∧ invokedAttempts (sync_retry ⟨3, 1, 60, 2, false, (1, 1)⟩ [ExcKind.APIError] none
        (fun k => if k < 2 then Except.error ⟨ExcKind.APITimeoutError, k⟩
          else Except.ok (42 : Nat)) (fun _ => 1))
      = List.range 3 :=
  let h := claim_C3_success_forwarded ⟨3, 1, 60, 2, false, (1, 1)⟩ [ExcKind.APIError] none
    (fun k => if k < 2 then Except.error ⟨ExcKind.APITimeoutError, k⟩
      else Except.ok (42 : Nat)) (fun _ => (1 : ℚ))
    (fun k => ⟨ExcKind.APITimeoutError, k⟩) 2 42 (by norm_num)
    (fun k hk => by simp [hk]) (fun k _ => rfl) rfl
  ⟨h.1.1, h.1.2.1⟩

/-- C4: for both executors, a failure whose kind is outside the retryable
set propagates at once: the run ends with that exception, with no sleep, no
further invocation and no callback call for it — in particular an operation
that always fails non-retryably is invoked exactly once regardless of
`max_retries`. -/
theorem claim_C4_nonretryable_immediate {α : Type} (cfg : RetryConfig)
    (excs : List ExcKind) (on_retry : Option (Exc → Nat → Option Exc))
    (func : Nat → Except Exc α) (us : Nat → ℚ) (errs : Nat → Exc)
    (j : Nat) (e : Exc)
    (hj : j ≤ cfg.max_retries)
    (hf : ∀ k, k < j → func k = Except.error (errs k))
    (hr : ∀ k, k < j → isRetryable (errs k).kind excs = true)
    (he : func j = Except.error e)
    (hnr : isRetryable e.kind excs = false) :
    ((sync_retry cfg excs on_retry func us).outcome = Except.error e
      ∧ invokedAttempts (sync_retry cfg excs on_retry func us) = List.range (j + 1)
      ∧ sleepDelays (sync_retry cfg excs on_retry func us)
        = (List.range j).map (fun k => cfg.calculate_delay k (us k))
      ∧ callbackCalls (sync_retry cfg excs on_retry func us)
        = cbTag on_retry ((List.range j).map (fun k => (errs k, k))))
    ∧ ((async_retry cfg excs on_retry func us).outcome = Except.error e
      ∧ invokedAttempts (async_retry cfg excs on_retry func us) = List.range (j + 1)
      ∧ sleepDelays (async_retry cfg excs on_retry func us)
        = (List.range j).map (fun k => cfg.calculate_delay k (us k))
      ∧ callbackCalls (async_retry cfg excs on_retry func us)
        = cbTag on_retry ((List.range j).map (fun k => (errs k, k)))) := by
  obtain ⟨hev, hout, hinv, hsl, hcb⟩ :=
    sync_retry_reach cfg excs on_retry func us errs j hj hf hr
      (Or.inr ⟨e, he, Or.inl hnr⟩)
  have ho : (sync_retry cfg excs on_retry func us).outcome = Except.error e := by
    rw [hout, he]; rfl
  rw [async_retry_eq_sync]
  exact ⟨⟨ho, hinv, hsl, hcb⟩, ho, hinv, hsl, hcb⟩

/-- Witness for C4: a first-attempt `LLMError` against an `APIError`-only
retryable set under `max_retries = 5`: one invocation, no sleep, no
callback, the failure propagated unmodified. -/
theorem claim_C4_nonretryable_immediate_witness :
    (sync_retry ⟨5, 1, 60, 2, false, (1, 1)⟩ [ExcKind.APIError] none
        ((fun k => Except.error ⟨ExcKind.LLMError, k⟩) : Nat → Except Exc Nat)
        (fun _ => 1)).outcome
      = Except.error ⟨ExcKind.LLMError, 0⟩
    ∧ invokedAttempts (sync_retry ⟨5, 1, 60, 2, false, (1, 1)⟩ [ExcKind.APIError] none
        ((fun k => Except.error ⟨ExcKind.LLMError, k⟩) : Nat → Except Exc Nat)
        (fun _ => 1))
      = List.range 1
    ∧ sleepDelays (sync_retry ⟨5, 1, 60, 2, false, (1, 1)⟩ [ExcKind.APIError] none
        ((fun k => Except.error ⟨ExcKind.LLMError, k⟩) : Nat → Except Exc Nat)
        (fun _ => 1)) = [] :=
  let h := claim_C4_nonretryable_immediate ⟨5, 1, 60, 2, false, (1, 1)⟩ [ExcKind.APIError]
    none ((fun k => Except.error ⟨ExcKind.LLMError, k⟩) : Nat → Except Exc Nat)
    (fun _ => (1 : ℚ))
    (fun k => ⟨ExcKind.LLMError, k⟩) 0 ⟨ExcKind.LLMError, 0⟩ (by omega)
    (fun k hk => absurd hk (Nat.not_lt_zero k)) (fun k hk => absurd hk (Nat.not_lt_zero k))
    rfl rfl
  ⟨h.1.1, h.1.2.1, h.1.2.2.1⟩

/-- C7: for both executors, with a callback supplied, the callback is
invoked exactly once per retried attempt `k < t` with that attempt's failure
object and index, and never on the terminal attempt — whether it succeeds,
fails non-retryably, or fails retryably with the budget exhausted. -/
theorem claim_C7_callback_per_retry {α : Type} (cfg : RetryConfig) (excs : List ExcKind)
    (f : Exc → Nat → Option Exc) (func : Nat → Except Exc α) (us : Nat → ℚ)
    (errs : Nat → Exc) (t : Nat)
    (ht : t ≤ cfg.max_retries)
    (hf : ∀ k, k < t → func k = Except.error (errs k))
    (hr : ∀ k, k < t → isRetryable (errs k).kind excs = true)
    (hterm : (∃ v, func t = Except.ok v) ∨
       (∃ e, func t = Except.error e ∧
          (isRetryable e.kind excs = false ∨ t = cfg.max_retries))) :
    callbackCalls (sync_retry cfg excs (some f) func us)
        = (List.range t).map (fun k => (errs k, k))
      ∧ callbackCalls (async_retry cfg excs (some f) func us)
        = (List.range t).map (fun k => (errs k, k)) := by
  obtain ⟨_, _, _, _, hcb⟩ :=
    sync_retry_reach cfg excs (some f) func us errs t ht hf hr hterm
  rw [async_retry_eq_sync]
  exact ⟨by simpa [cbTag] using hcb, by simpa [cbTag] using hcb⟩

/-- Witness for C7: one retryable failure then success on attempt 1: the
callback ran exactly once, with the attempt-0 failure and index 0. -/
theorem claim_C7_callback_per_retry_witness :
    callbackCalls (sync_retry ⟨2, 1, 60, 2, false, (1, 1)⟩ [ExcKind.APIError]
        (some (fun _ _ => none))
        (fun k => if k < 1 then Except.error ⟨ExcKind.APITimeoutError, k⟩
          else Except.ok (7 : Nat)) (fun _ => 1))
      = (List.range 1).map (fun k => ((⟨ExcKind.APITimeoutError, k⟩ : Exc), k)) :=
  (claim_C7_callback_per_retry ⟨2, 1, 60, 2, false, (1, 1)⟩ [ExcKind.APIError]
    (fun _ _ => none)
    (fun k => if k < 1 then Except.error ⟨ExcKind.APITimeoutError, k⟩
      else Except.ok (7 : Nat)) (fun _ => (1 : ℚ))
    (fun k => ⟨ExcKind.APITimeoutError, k⟩) 1 (by decide)
    (fun k hk => by simp [hk]) (fun k _ => rfl) (Or.inl ⟨7, rfl⟩)).1

/-- C8: for both executors, a failure raised by the retry callback itself is
caught and discarded: the run is observationally identical — same outcome,
same invocations, same sleeps, same callback arguments — to the run whose
callback always succeeds, so the caller never sees the callback's failure. -/
theorem claim_C8_callback_failure_discarded {α : Type} (cfg : RetryConfig)
    (excs : List ExcKind) (f : Exc → Nat → Option Exc)
    (func : Nat → Except Exc α) (us : Nat → ℚ) :
    ((sync_retry cfg excs (some f) func us).outcome
        = (sync_retry cfg excs (some (fun _ _ => none)) func us).outcome
      ∧ invokedAttempts (sync_retry cfg excs (some f) func us)
        = invokedAttempts (sync_retry cfg excs (some (fun _ _ => none)) func us)
      ∧ sleepDelays (sync_retry cfg excs (some f) func us)
        = sleepDelays (sync_retry cfg excs (some (fun _ _ => none)) func us)
      ∧ callbackCalls (sync_retry cfg excs (some f) func us)
        = callbackCalls (sync_retry cfg excs (some (fun _ _ => none)) func us))
    ∧ ((async_retry cfg excs (some f) func us).outcome
        = (async_retry cfg excs (some (fun _ _ => none)) func us).outcome
      ∧ invokedAttempts (async_retry cfg excs (some f) func us)
        = invokedAttempts (async_retry cfg excs (some (fun _ _ => none)) func us)
      ∧ sleepDelays (async_retry cfg excs (some f) func us)
        = sleepDelays (async_retry cfg excs (some (fun _ _ => none)) func us)
      ∧ callbackCalls (async_retry cfg excs (some f) func us)
        = callbackCalls (async_retry cfg excs (some (fun _ _ => none)) func us)) := by
  obtain ⟨ho, hi, hs, hc⟩ :=
    sync_go_callback_indep cfg excs f (fun _ _ => none) func us
      (cfg.max_retries + 1) 0 none
  rw [async_retry_eq_sync, async_retry_eq_sync]
  exact ⟨⟨ho, hi, hs, hc⟩, ho, hi, hs, hc⟩

/-- C5: a failure is treated as retryable iff its kind equals an entry of
the caller-supplied set or is a taxonomy descendant of one; a kind with no
such ancestor propagates on its first occurrence, unmodified, after a single
invocation with no sleep and no callback. -/
theorem claim_C5_retryable_membership (k : ExcKind) (excs : List ExcKind) :
    (isRetryable k excs = true ↔ ∃ a ∈ excs, k = a ∨ Descendant k a)
    ∧ (∀ {α : Type} (cfg : RetryConfig) (on_retry : Option (Exc → Nat → Option Exc))
         (func : Nat → Except Exc α) (us : Nat → ℚ) (e : Exc),
         e.kind = k → (¬ ∃ a ∈ excs, k = a ∨ Descendant k a) →
         func 0 = Except.error e →
         (sync_retry cfg excs on_retry func us).outcome = Except.error e
         ∧ invokedAttempts (sync_retry cfg excs on_retry func us) = [0]
         ∧ sleepDelays (sync_retry cfg excs on_retry func us) = []
         ∧ callbackCalls (sync_retry cfg excs on_retry func us) = []
         ∧ (async_retry cfg excs on_retry func us).outcome = Except.error e) := by
  refine ⟨isRetryable_iff k excs, ?_⟩
  intro α cfg on_retry func us e hek hno hf0
  have hnr : isRetryable e.kind excs = false := by
    rw [hek]
    rcases hb : isRetryable k excs with _ | _
    · rfl
    · exact absurd ((isRetryable_iff k excs).mp hb) hno
  obtain ⟨hev, hout, hinv, hsl, hcb⟩ :=
    sync_retry_reach cfg excs on_retry func us (fun _ => e) 0 (Nat.zero_le _)
      (fun m hm => absurd hm (Nat.not_lt_zero m))
      (fun m hm => absurd hm (Nat.not_lt_zero m))
      (Or.inr ⟨e, hf0, Or.inl hnr⟩)
  have ho : (sync_retry cfg excs on_retry func us).outcome = Except.error e := by
    rw [hout, hf0]; rfl
  refine ⟨ho, by simpa using hinv, by simpa using hsl, ?_, by rw [async_retry_eq_sync]; exact ho⟩
  rw [hcb]
  cases on_retry <;> simp [cbTag]

end ContestTrade
